import Mathlib

/-!
# Verification of the MinecraftChatRust component model

Shallow embedding of `src/component/mod.rs`: the `ChatComponent` tree
(variant payload + style + siblings), its constructors, accessors,
setters and chainable builders, and the serde-derived JSON
serialization determined by the attributes in the source
(`serde(flatten)` on `kind` and `style`, `serde(untagged)` on
`ComponentType`, `serde(rename = "extra", skip_serializing_if =
"Vec::is_empty", default)` on `siblings`, `serde(rename = "translate")`
on `TranslationComponent.key`, `serde(skip_serializing_if =
"Option::is_none")` on `ScoreComponent.value`).
-/

/-- A model of the JSON values exchanged at the serialization boundary.
Objects are ordered association lists, as produced by serde's map
serializer. -/
inductive Json : Type where
  | str : String → Json
  | bool : Bool → Json
  | arr : List Json → Json
  | obj : List (String × Json) → Json
deriving Repr

/-- First-match lookup of a key in a serialized object's field list. -/
def lookupField : List (String × Json) → String → Option Json
  | [], _ => none
  | (k, v) :: rest, key => if k = key then some v else lookupField rest key

/-- Lookup of a top-level key in a JSON value (none on non-objects). -/
def Json.lookup : Json → String → Option Json
  | Json.obj fs, key => lookupField fs key
  | _, _ => none

/-- Modelled from the spec: `ComponentStyle` lives in the crate's
`style` module, which is not under `src/`; the spec describes it as a
flat bag of optional presentation attributes with no algorithmic
behaviour, flattened into the serialized record with absent attributes
omitted. We model it as a record of optional attributes. -/
structure ComponentStyle : Type where
  bold : Option Bool := none
  italic : Option Bool := none
  color : Option String := none
  insertion : Option String := none
deriving Repr, DecidableEq

/-- `TextComponent` from the source: a single `text` field. -/
structure TextComponent : Type where
  text : String
deriving Repr, DecidableEq

/-- `ScoreComponent` from the source: `name`, `objective`, and the
optional `value` override (serialized only when present). -/
structure ScoreComponent : Type where
  name : String
  objective : String
  value : Option String
deriving Repr, DecidableEq

/-- `SelectorComponent` from the source: a single `selector` field. -/
structure SelectorComponent : Type where
  selector : String
deriving Repr, DecidableEq

/-- `KeybindComponent` from the source: a single `keybind` field. -/
structure KeybindComponent : Type where
  keybind : String
deriving Repr, DecidableEq

mutual

/-- `ChatComponent` from the source: a variant payload `kind`, a
`style`, and the ordered `siblings` (children, serialized as `extra`). -/
inductive ChatComponent : Type where
  | mk : ComponentType → ComponentStyle → List ChatComponent → ChatComponent

/-- `ComponentType` from the source: the five mutually exclusive
variant payloads, serde-untagged. -/
inductive ComponentType : Type where
  | Text : TextComponent → ComponentType
  | Translation : TranslationComponent → ComponentType
  | Score : ScoreComponent → ComponentType
  | Selector : SelectorComponent → ComponentType
  | Keybind : KeybindComponent → ComponentType

/-- `TranslationComponent` from the source: the localization `key`
(serialized as `translate`) and the `with` arguments list. -/
inductive TranslationComponent : Type where
  | mk : String → List ChatComponent → TranslationComponent

end

/-- Accessor for the `kind` field (`ChatComponent::get_kind`). -/
def ChatComponent.kind : ChatComponent → ComponentType
  | .mk k _ _ => k

/-- Accessor for the `style` field (`ChatComponent::get_style`). -/
def ChatComponent.style : ChatComponent → ComponentStyle
  | .mk _ s _ => s

/-- Accessor for the `siblings` field (`ChatComponent::get_siblings`). -/
def ChatComponent.siblings : ChatComponent → List ChatComponent
  | .mk _ _ sibs => sibs

/-- Accessor for the translation key (`TranslationComponent::get_key`). -/
def TranslationComponent.key : TranslationComponent → String
  | .mk k _ => k

/-- Accessor for the translation arguments list (the `with` field). -/
def TranslationComponent.args : TranslationComponent → List ChatComponent
  | .mk _ ws => ws

/-- serde `Serialize` for the modelled style: each optional attribute
is emitted only when present. -/
def ComponentStyle.encodeFields (s : ComponentStyle) : List (String × Json) :=
  (match s.bold with
   | none => []
   | some b => [("bold", Json.bool b)]) ++
  (match s.italic with
   | none => []
   | some b => [("italic", Json.bool b)]) ++
  (match s.color with
   | none => []
   | some c => [("color", Json.str c)]) ++
  (match s.insertion with
   | none => []
   | some i => [("insertion", Json.str i)])

mutual

/-- serde `Serialize` for `ChatComponent`: the flattened untagged kind
fields, then the flattened style fields, then `extra` (skipped when the
siblings vector is empty). -/
def ChatComponent.encode : ChatComponent → Json
  | .mk k s sibs =>
      Json.obj (ComponentType.encodeFields k ++ ComponentStyle.encodeFields s ++
        (match sibs with
         | [] => []
         | _ => [("extra", Json.arr (encodeList sibs))]))

/-- serde `Serialize` for the untagged `ComponentType`: the active
variant's own fields, with `key` renamed to `translate` and Score's
`value` skipped when `None`. -/
def ComponentType.encodeFields : ComponentType → List (String × Json)
  | .Text t => [("text", Json.str t.text)]
  | .Translation (.mk key ws) =>
      [("translate", Json.str key), ("with", Json.arr (encodeList ws))]
  | .Score sc =>
      [("name", Json.str sc.name), ("objective", Json.str sc.objective)] ++
        (match sc.value with
         | none => []
         | some v => [("value", Json.str v)])
  | .Selector se => [("selector", Json.str se.selector)]
  | .Keybind kb => [("keybind", Json.str kb.keybind)]

/-- Serialization of a vector of components. -/
def encodeList : List ChatComponent → List Json
  | [] => []
  | c :: cs => ChatComponent.encode c :: encodeList cs

end

theorem lookupField_sizeOf :
    ∀ (fs : List (String × Json)) (key : String) (v : Json),
      lookupField fs key = some v → sizeOf v < sizeOf fs := by
  intro fs key
  induction fs with
  | nil => intro v h; simp [lookupField] at h
  | cons hd tl ih =>
    intro v h
    obtain ⟨k, j⟩ := hd
    simp only [lookupField] at h
    by_cases hk : k = key
    · simp [hk] at h
      subst h
      simp
      omega
    · have := ih v (by simpa [hk] using h)
      simp
      omega

/-- serde deserialization of an optional boolean style attribute from
the buffered record fields: a missing `Option` field is `None`, a
present field must be a boolean. -/
def optBoolField (fs : List (String × Json)) (key : String) : Option (Option Bool) :=
  match lookupField fs key with
  | none => some none
  | some (Json.bool b) => some (some b)
  | some _ => none

/-- serde deserialization of an optional string style attribute. -/
def optStrField (fs : List (String × Json)) (key : String) : Option (Option String) :=
  match lookupField fs key with
  | none => some none
  | some (Json.str s) => some (some s)
  | some _ => none

/-- serde `Deserialize` for the modelled style from the flattened
record: every attribute is optional, unknown fields are ignored. -/
def ComponentStyle.decodeFrom (fs : List (String × Json)) : Option ComponentStyle :=
  match optBoolField fs "bold", optBoolField fs "italic",
        optStrField fs "color", optStrField fs "insertion" with
  | some b, some i, some c, some ins => some ⟨b, i, c, ins⟩
  | _, _, _, _ => none

/-- serde untagged deserialization, variants `Selector` then `Keybind`
(the tail of the declaration-order cascade). -/
def selectorKeybindFrom (fs : List (String × Json)) : Option ComponentType :=
  match lookupField fs "selector" with
  | some (Json.str s) => some (ComponentType.Selector ⟨s⟩)
  | _ =>
    match lookupField fs "keybind" with
    | some (Json.str k) => some (ComponentType.Keybind ⟨k⟩)
    | _ => none

/-- serde untagged deserialization, variants `Score` then `Selector`
then `Keybind`: `ScoreComponent` requires `name` and `objective`, the
`Option` field `value` may be absent; on failure the next variant in
declaration order is tried. -/
def scoreSelectorKeybindFrom (fs : List (String × Json)) : Option ComponentType :=
  match lookupField fs "name", lookupField fs "objective" with
  | some (Json.str n), some (Json.str o) =>
      (match lookupField fs "value" with
       | none => some (ComponentType.Score ⟨n, o, none⟩)
       | some (Json.str v) => some (ComponentType.Score ⟨n, o, some v⟩)
       | some _ => selectorKeybindFrom fs)
  | _, _ => selectorKeybindFrom fs

mutual

/-- serde `Deserialize` for `ChatComponent`: only an object can decode;
the named field `extra` (defaulting to the empty vector) and the two
flattened fields (`kind`, untagged, and `style`) all decode from the
buffered field list, and all must succeed. -/
def ChatComponent.decode (j : Json) : Option ChatComponent :=
  match j with
  | Json.obj fs =>
      (match ComponentType.decodeFrom fs, ComponentStyle.decodeFrom fs,
             siblingsFrom fs with
       | some k, some s, some sibs => some (ChatComponent.mk k s sibs)
       | _, _, _ => none)
  | _ => none
termination_by sizeOf j
decreasing_by all_goals simp_wf <;> omega

/-- serde `Deserialize` for the untagged `ComponentType`: each variant
is tried in declaration order (Text, Translation, Score, Selector,
Keybind) and the first that deserializes from the buffered fields wins;
unknown fields are ignored by every variant. -/
def ComponentType.decodeFrom (fs : List (String × Json)) : Option ComponentType :=
  match lookupField fs "text" with
  | some (Json.str t) => some (ComponentType.Text ⟨t⟩)
  | _ =>
    match h1 : lookupField fs "translate", h2 : lookupField fs "with" with
    | some (Json.str k), some (Json.arr ws) =>
        (match decodeArgs ws with
         | some args => some (ComponentType.Translation (TranslationComponent.mk k args))
         | none => scoreSelectorKeybindFrom fs)
    | _, _ => scoreSelectorKeybindFrom fs
termination_by sizeOf fs
decreasing_by
  simp_wf
  have := lookupField_sizeOf _ _ _ h2
  simp at this
  omega

/-- Deserialization of the `extra` field: absent means the serde
`default` (empty vector); present must be an array of components. -/
def siblingsFrom (fs : List (String × Json)) : Option (List ChatComponent) :=
  match h : lookupField fs "extra" with
  | none => some []
  | some (Json.arr xs) => decodeArgs xs
  | some _ => none
termination_by sizeOf fs
decreasing_by
  simp_wf
  have := lookupField_sizeOf _ _ _ h
  simp at this
  omega

/-- Deserialization of an array of components, failing if any element
fails. -/
def decodeArgs : List Json → Option (List ChatComponent)
  | [] => some []
  | j :: js =>
      (match ChatComponent.decode j, decodeArgs js with
       | some c, some cs => some (c :: cs)
       | _, _ => none)
termination_by js => sizeOf js
decreasing_by all_goals simp_wf <;> omega

end

/-- serde `Deserialize` for `TextComponent` from the buffered record:
the `text` field must be present as a string; other fields are
ignored. -/
def TextComponent.decodeFrom (fs : List (String × Json)) : Option TextComponent :=
  match lookupField fs "text" with
  | some (Json.str t) => some ⟨t⟩
  | _ => none

/-- serde `Deserialize` for `TranslationComponent` from the buffered
record: `translate` (the renamed `key`) and `with` are both required,
and every element of `with` must decode. -/
def TranslationComponent.decodeFrom (fs : List (String × Json)) :
    Option TranslationComponent :=
  match lookupField fs "translate", lookupField fs "with" with
  | some (Json.str k), some (Json.arr ws) =>
      (match decodeArgs ws with
       | some args => some (TranslationComponent.mk k args)
       | none => none)
  | _, _ => none

/-- serde `Deserialize` for `ScoreComponent` from the buffered record:
`name` and `objective` are required strings, the `Option` field
`value` may be absent. -/
def ScoreComponent.decodeFrom (fs : List (String × Json)) : Option ScoreComponent :=
  match lookupField fs "name", lookupField fs "objective" with
  | some (Json.str n), some (Json.str o) =>
      (match lookupField fs "value" with
       | none => some ⟨n, o, none⟩
       | some (Json.str v) => some ⟨n, o, some v⟩
       | some _ => none)
  | _, _ => none

/-- serde `Deserialize` for `SelectorComponent` from the buffered
record. -/
def SelectorComponent.decodeFrom (fs : List (String × Json)) : Option SelectorComponent :=
  match lookupField fs "selector" with
  | some (Json.str s) => some ⟨s⟩
  | _ => none

/-- serde `Deserialize` for `KeybindComponent` from the buffered
record. -/
def KeybindComponent.decodeFrom (fs : List (String × Json)) : Option KeybindComponent :=
  match lookupField fs "keybind" with
  | some (Json.str k) => some ⟨k⟩
  | _ => none

/-- `TextComponent::from_text`. -/
def TextComponent.from_text (text : String) : TextComponent := ⟨text⟩

/-- `TextComponent::set_text` (in-place setter, modelled functionally). -/
def TextComponent.set_text (self : TextComponent) (text : String) : TextComponent :=
  { self with text := text }

/-- `TextComponent::text`, the chainable builder: set, then return self. -/
def TextComponent.withText (self : TextComponent) (text : String) : TextComponent :=
  self.set_text text

/-- `TranslationComponent::from_key`: arguments start empty. -/
def TranslationComponent.from_key (key : String) : TranslationComponent :=
  TranslationComponent.mk key []

/-- `TranslationComponent::set_key`. -/
def TranslationComponent.set_key (self : TranslationComponent) (key : String) :
    TranslationComponent :=
  TranslationComponent.mk key self.args

/-- `TranslationComponent::key`, the chainable builder. -/
def TranslationComponent.withKey (self : TranslationComponent) (key : String) :
    TranslationComponent :=
  self.set_key key

/-- `TranslationComponent::add_arg`: push one argument. -/
def TranslationComponent.add_arg (self : TranslationComponent) (component : ChatComponent) :
    TranslationComponent :=
  TranslationComponent.mk self.key (self.args ++ [component])

/-- `TranslationComponent::argument`, the chainable builder. -/
def TranslationComponent.argument (self : TranslationComponent) (component : ChatComponent) :
    TranslationComponent :=
  self.add_arg component

/-- `ScoreComponent::from_score`: `value` starts `None`. -/
def ScoreComponent.from_score (name objective : String) : ScoreComponent :=
  ⟨name, objective, none⟩

/-- `ScoreComponent::set_name`. -/
def ScoreComponent.set_name (self : ScoreComponent) (name : String) : ScoreComponent :=
  { self with name := name }

/-- `ScoreComponent::name`, the chainable builder. -/
def ScoreComponent.withName (self : ScoreComponent) (name : String) : ScoreComponent :=
  self.set_name name

/-- `ScoreComponent::set_objective`. -/
def ScoreComponent.set_objective (self : ScoreComponent) (objective : String) : ScoreComponent :=
  { self with objective := objective }

/-- `ScoreComponent::objective`, the chainable builder. -/
def ScoreComponent.withObjective (self : ScoreComponent) (objective : String) : ScoreComponent :=
  self.set_objective objective

/-- `ScoreComponent::set_value`: takes an `Option`, `None` clears. -/
def ScoreComponent.set_value (self : ScoreComponent) (value : Option String) : ScoreComponent :=
  { self with value := value }

/-- `ScoreComponent::value`, the chainable builder. -/
def ScoreComponent.withValue (self : ScoreComponent) (value : Option String) : ScoreComponent :=
  self.set_value value

/-- `SelectorComponent::from_selector`. -/
def SelectorComponent.from_selector (selector : String) : SelectorComponent := ⟨selector⟩

/-- `SelectorComponent::set_selector`. -/
def SelectorComponent.set_selector (self : SelectorComponent) (selector : String) :
    SelectorComponent :=
  { self with selector := selector }

/-- `SelectorComponent::selector`, the chainable builder. -/
def SelectorComponent.withSelector (self : SelectorComponent) (selector : String) :
    SelectorComponent :=
  self.set_selector selector

/-- `KeybindComponent::from_keybind`. -/
def KeybindComponent.from_keybind (keybind : String) : KeybindComponent := ⟨keybind⟩

/-- `KeybindComponent::set_keybind`. -/
def KeybindComponent.set_keybind (self : KeybindComponent) (keybind : String) :
    KeybindComponent :=
  { self with keybind := keybind }

/-- `KeybindComponent::keybind`, the chainable builder. -/
def KeybindComponent.withKeybind (self : KeybindComponent) (keybind : String) :
    KeybindComponent :=
  self.set_keybind keybind

/-- `ChatComponent::from_component`: wrap a variant and a style with
empty siblings. -/
def ChatComponent.from_component (kind : ComponentType) (style : ComponentStyle) :
    ChatComponent :=
  ChatComponent.mk kind style []

/-- `ChatComponent::from_text`. -/
def ChatComponent.from_text (text : String) (style : ComponentStyle) : ChatComponent :=
  ChatComponent.mk (ComponentType.Text (TextComponent.from_text text)) style []

/-- `ChatComponent::from_key`. -/
def ChatComponent.from_key (key : String) (style : ComponentStyle) : ChatComponent :=
  ChatComponent.mk (ComponentType.Translation (TranslationComponent.from_key key)) style []

/-- `ChatComponent::from_score`. -/
def ChatComponent.from_score (name objective : String) (style : ComponentStyle) :
    ChatComponent :=
  ChatComponent.mk (ComponentType.Score (ScoreComponent.from_score name objective)) style []

/-- `ChatComponent::from_selector`. -/
def ChatComponent.from_selector (selector : String) (style : ComponentStyle) : ChatComponent :=
  ChatComponent.mk (ComponentType.Selector (SelectorComponent.from_selector selector)) style []

/-- `ChatComponent::from_keybind`. -/
def ChatComponent.from_keybind (keybind : String) (style : ComponentStyle) : ChatComponent :=
  ChatComponent.mk (ComponentType.Keybind (KeybindComponent.from_keybind keybind)) style []

/-- `impl Deref for ChatComponent`: `deref` returns `&self.style`, so
the forwarded style surface is exactly the `style` field. -/
def ChatComponent.deref (self : ChatComponent) : ComponentStyle :=
  self.style

/-- Modelled from the spec: a single mutation of one attribute of the
style bag (the style module is not under `src/`; the spec describes
optional attributes with setters and no other behaviour). -/
inductive StyleOp : Type where
  | setBold : Option Bool → StyleOp
  | setItalic : Option Bool → StyleOp
  | setColor : Option String → StyleOp
  | setInsertion : Option String → StyleOp

/-- Effect of a style mutation on the style bag. -/
def StyleOp.apply : StyleOp → ComponentStyle → ComponentStyle
  | .setBold b, s => { s with bold := b }
  | .setItalic i, s => { s with italic := i }
  | .setColor c, s => { s with color := c }
  | .setInsertion i, s => { s with insertion := i }

/-- A payload mutation reachable through `get_kind_mut`: one of the
payload setters, applicable (by matching) only when the node currently
holds that payload's variant — the setters are methods of the payload
structs, so a caller must pattern-match the variant to reach them. -/
inductive KindOp : Type where
  | set_text : String → KindOp
  | set_key : String → KindOp
  | add_arg : ChatComponent → KindOp
  | set_name : String → KindOp
  | set_objective : String → KindOp
  | set_value : Option String → KindOp
  | set_selector : String → KindOp
  | set_keybind : String → KindOp

/-- Effect of a payload mutation through `get_kind_mut`: the setter of
the matching payload, in place; a setter of a different variant's
payload is unreachable (identity). -/
def KindOp.apply : KindOp → ComponentType → ComponentType
  | .set_text t, .Text p => .Text (p.set_text t)
  | .set_key k, .Translation p => .Translation (p.set_key k)
  | .add_arg c, .Translation p => .Translation (p.add_arg c)
  | .set_name n, .Score p => .Score (p.set_name n)
  | .set_objective o, .Score p => .Score (p.set_objective o)
  | .set_value v, .Score p => .Score (p.set_value v)
  | .set_selector s, .Selector p => .Selector (p.set_selector s)
  | .set_keybind k, .Keybind p => .Keybind (p.set_keybind k)
  | _, k => k

/-- Replace the element at an index, if in range. -/
def modifyAt (f : ChatComponent → ChatComponent) :
    Nat → List ChatComponent → List ChatComponent
  | _, [] => []
  | 0, c :: cs => f c :: cs
  | n + 1, c :: cs => c :: modifyAt f n cs

/-- A mutation of a component through the public interface other than
wholesale replacement of the node or of its `kind` value: payload
mutations via `get_kind_mut`, style mutations via `get_style_mut`,
sibling-list mutations via `get_siblings_mut` (push, pop, clear,
replace the vector, or recursively mutate one child). -/
inductive Op : Type where
  | kind : KindOp → Op
  | style : StyleOp → Op
  | pushSibling : ChatComponent → Op
  | popSibling : Op
  | clearSiblings : Op
  | setSiblings : List ChatComponent → Op
  | child : Nat → Op → Op

/-- Effect of a public-interface mutation on a component. -/
def Op.apply : Op → ChatComponent → ChatComponent
  | .kind kop, .mk k s sibs => .mk (kop.apply k) s sibs
  | .style sop, .mk k s sibs => .mk k (sop.apply s) sibs
  | .pushSibling c, .mk k s sibs => .mk k s (sibs ++ [c])
  | .popSibling, .mk k s sibs => .mk k s sibs.dropLast
  | .clearSiblings, .mk k s _ => .mk k s []
  | .setSiblings l, .mk k s _ => .mk k s l
  | .child i op, .mk k s sibs => .mk k s (modifyAt op.apply i sibs)

/-- Effect of a sequence of public-interface mutations, first to last. -/
def applyOps (ops : List Op) (c : ChatComponent) : ChatComponent :=
  ops.foldl (fun acc op => Op.apply op acc) c

/-- Which of the five variants a payload holds. -/
def ComponentType.tag : ComponentType → Nat
  | .Text _ => 0
  | .Translation _ => 1
  | .Score _ => 2
  | .Selector _ => 3
  | .Keybind _ => 4

mutual

/-- `#[derive(Clone)]` for `ChatComponent`: clone every field; the
siblings vector deep-clones its elements. -/
def ChatComponent.clone : ChatComponent → ChatComponent
  | .mk k s sibs => .mk k.clone s (cloneList sibs)

/-- `#[derive(Clone)]` for `ComponentType`: clone the payload. -/
def ComponentType.clone : ComponentType → ComponentType
  | .Text t => .Text ⟨t.text⟩
  | .Translation (.mk key ws) => .Translation (.mk key (cloneList ws))
  | .Score sc => .Score ⟨sc.name, sc.objective, sc.value⟩
  | .Selector se => .Selector ⟨se.selector⟩
  | .Keybind kb => .Keybind ⟨kb.keybind⟩

/-- Cloning a vector of components clones every element. -/
def cloneList : List ChatComponent → List ChatComponent
  | [] => []
  | c :: cs => c.clone :: cloneList cs

end

/-- Setting a style attribute through the node's forwarding surface:
`impl DerefMut for ChatComponent` returns `&mut self.style`, so the
mutation acts on the deref target inside the node. -/
def ChatComponent.setStyleViaDeref (c : ChatComponent) (op : StyleOp) : ChatComponent :=
  match c with
  | .mk k _ sibs => .mk k (op.apply c.deref) sibs

/-- Setting a style attribute by explicitly fetching the style object
with `get_style_mut` and mutating it there. -/
def ChatComponent.setStyleViaGetStyle (c : ChatComponent) (op : StyleOp) : ChatComponent :=
  match c with
  | .mk k s sibs => .mk k (op.apply s) sibs

theorem lookupField_append_none {a : List (String × Json)} (b : List (String × Json))
    {key : String} (h : lookupField a key = none) :
    lookupField (a ++ b) key = lookupField b key := by
  induction a with
  | nil => simp
  | cons hd tl ih =>
    obtain ⟨k, v⟩ := hd
    simp only [lookupField] at h ⊢
    by_cases hk : k = key
    · simp [hk] at h
    · simp only [if_neg hk] at h ⊢
      exact ih h

theorem lookupField_append_some {a : List (String × Json)} (b : List (String × Json))
    {key : String} {v : Json} (h : lookupField a key = some v) :
    lookupField (a ++ b) key = some v := by
  induction a with
  | nil => simp [lookupField] at h
  | cons hd tl ih =>
    obtain ⟨k, w⟩ := hd
    simp only [lookupField] at h ⊢
    by_cases hk : k = key
    · simpa [hk] using h
    · simp only [if_neg hk] at h ⊢
      exact ih h

theorem style_lookup_none (s : ComponentStyle) (key : String)
    (h1 : ¬ ("bold" = key)) (h2 : ¬ ("italic" = key))
    (h3 : ¬ ("color" = key)) (h4 : ¬ ("insertion" = key)) :
    lookupField (ComponentStyle.encodeFields s) key = none := by
  obtain ⟨b, i, c, ins⟩ := s
  cases b <;> cases i <;> cases c <;> cases ins <;>
    simp [ComponentStyle.encodeFields, lookupField, h1, h2, h3, h4]

theorem style_decode_dropCons (k : String) (v : Json) (rest : List (String × Json))
    (h1 : ¬ (k = "bold")) (h2 : ¬ (k = "italic"))
    (h3 : ¬ (k = "color")) (h4 : ¬ (k = "insertion")) :
    ComponentStyle.decodeFrom ((k, v) :: rest) = ComponentStyle.decodeFrom rest := by
  simp only [ComponentStyle.decodeFrom, optBoolField, optStrField, lookupField,
    if_neg h1, if_neg h2, if_neg h3, if_neg h4]

theorem style_decode_encode (s : ComponentStyle) (post : List (String × Json))
    (pb : lookupField post "bold" = none) (pit : lookupField post "italic" = none)
    (pc : lookupField post "color" = none) (pn : lookupField post "insertion" = none) :
    ComponentStyle.decodeFrom (ComponentStyle.encodeFields s ++ post) = some s := by
  obtain ⟨b, i, c, ins⟩ := s
  cases b <;> cases i <;> cases c <;> cases ins <;>
    simp [ComponentStyle.encodeFields, ComponentStyle.decodeFrom, optBoolField,
      optStrField, lookupField, pb, pit, pc, pn]

theorem decodeArgs_encodeList (l : List ChatComponent)
    (ih : ∀ c ∈ l, ChatComponent.decode (ChatComponent.encode c) = some c) :
    decodeArgs (encodeList l) = some l := by
  induction l with
  | nil => simp [encodeList, decodeArgs]
  | cons c cs ihl =>
    simp [encodeList, decodeArgs, ih c (by simp),
      ihl (fun x hx => ih x (List.mem_cons_of_mem _ hx))]

theorem kind_decode_text (t : String) (s : ComponentStyle) (post : List (String × Json)) :
    ComponentType.decodeFrom (("text", Json.str t) :: (ComponentStyle.encodeFields s ++ post))
      = some (ComponentType.Text ⟨t⟩) := by
  simp [ComponentType.decodeFrom, lookupField]

theorem kind_decode_translation (k : String) (ws : List ChatComponent) (s : ComponentStyle)
    (post : List (String × Json))
    (htext : lookupField post "text" = none)
    (hargs : decodeArgs (encodeList ws) = some ws) :
    ComponentType.decodeFrom
      (("translate", Json.str k) :: ("with", Json.arr (encodeList ws)) ::
        (ComponentStyle.encodeFields s ++ post))
      = some (ComponentType.Translation (TranslationComponent.mk k ws)) := by
  have ht : lookupField (ComponentStyle.encodeFields s ++ post) "text" = none := by
    rw [lookupField_append_none _
      (style_lookup_none s "text" (by decide) (by decide) (by decide) (by decide))]
    exact htext
  simp [ComponentType.decodeFrom, lookupField, ht, hargs]

theorem styleTail_none (s : ComponentStyle) (post : List (String × Json)) (key : String)
    (h1 : ¬ ("bold" = key)) (h2 : ¬ ("italic" = key)) (h3 : ¬ ("color" = key))
    (h4 : ¬ ("insertion" = key)) (hpost : lookupField post key = none) :
    lookupField (ComponentStyle.encodeFields s ++ post) key = none := by
  rw [lookupField_append_none _ (style_lookup_none s key h1 h2 h3 h4)]
  exact hpost

theorem kind_decode_score_none (n o : String) (s : ComponentStyle)
    (post : List (String × Json))
    (htext : lookupField post "text" = none)
    (htr : lookupField post "translate" = none)
    (hwi : lookupField post "with" = none)
    (hval : lookupField post "value" = none) :
    ComponentType.decodeFrom
      (("name", Json.str n) :: ("objective", Json.str o) ::
        (ComponentStyle.encodeFields s ++ post))
      = some (ComponentType.Score ⟨n, o, none⟩) := by
  have ht := styleTail_none s post "text" (by decide) (by decide) (by decide) (by decide) htext
  have h2 := styleTail_none s post "translate" (by decide) (by decide) (by decide) (by decide) htr
  have h3 := styleTail_none s post "with" (by decide) (by decide) (by decide) (by decide) hwi
  have h4 := styleTail_none s post "value" (by decide) (by decide) (by decide) (by decide) hval
  simp [ComponentType.decodeFrom, scoreSelectorKeybindFrom, lookupField, ht, h2, h3, h4]

theorem kind_decode_score_some (n o v : String) (s : ComponentStyle)
    (post : List (String × Json))
    (htext : lookupField post "text" = none)
    (htr : lookupField post "translate" = none)
    (hwi : lookupField post "with" = none) :
    ComponentType.decodeFrom
      (("name", Json.str n) :: ("objective", Json.str o) :: ("value", Json.str v) ::
        (ComponentStyle.encodeFields s ++ post))
      = some (ComponentType.Score ⟨n, o, some v⟩) := by
  have ht := styleTail_none s post "text" (by decide) (by decide) (by decide) (by decide) htext
  have h2 := styleTail_none s post "translate" (by decide) (by decide) (by decide) (by decide) htr
  have h3 := styleTail_none s post "with" (by decide) (by decide) (by decide) (by decide) hwi
  simp [ComponentType.decodeFrom, scoreSelectorKeybindFrom, lookupField, ht, h2, h3]

theorem kind_decode_selector (sel : String) (s : ComponentStyle)
    (post : List (String × Json))
    (htext : lookupField post "text" = none)
    (htr : lookupField post "translate" = none)
    (hwi : lookupField post "with" = none)
    (hna : lookupField post "name" = none)
    (hob : lookupField post "objective" = none) :
    ComponentType.decodeFrom
      (("selector", Json.str sel) :: (ComponentStyle.encodeFields s ++ post))
      = some (ComponentType.Selector ⟨sel⟩) := by
  have ht := styleTail_none s post "text" (by decide) (by decide) (by decide) (by decide) htext
  have h2 := styleTail_none s post "translate" (by decide) (by decide) (by decide) (by decide) htr
  have h3 := styleTail_none s post "with" (by decide) (by decide) (by decide) (by decide) hwi
  have h4 := styleTail_none s post "name" (by decide) (by decide) (by decide) (by decide) hna
  have h5 := styleTail_none s post "objective" (by decide) (by decide) (by decide) (by decide) hob
  simp [ComponentType.decodeFrom, scoreSelectorKeybindFrom, selectorKeybindFrom,
    lookupField, ht, h2, h3, h4, h5]

theorem kind_decode_keybind (kb : String) (s : ComponentStyle)
    (post : List (String × Json))
    (htext : lookupField post "text" = none)
    (htr : lookupField post "translate" = none)
    (hwi : lookupField post "with" = none)
    (hna : lookupField post "name" = none)
    (hob : lookupField post "objective" = none)
    (hse : lookupField post "selector" = none) :
    ComponentType.decodeFrom
      (("keybind", Json.str kb) :: (ComponentStyle.encodeFields s ++ post))
      = some (ComponentType.Keybind ⟨kb⟩) := by
  have ht := styleTail_none s post "text" (by decide) (by decide) (by decide) (by decide) htext
  have h2 := styleTail_none s post "translate" (by decide) (by decide) (by decide) (by decide) htr
  have h3 := styleTail_none s post "with" (by decide) (by decide) (by decide) (by decide) hwi
  have h4 := styleTail_none s post "name" (by decide) (by decide) (by decide) (by decide) hna
  have h5 := styleTail_none s post "objective" (by decide) (by decide) (by decide) (by decide) hob
  have h6 := styleTail_none s post "selector" (by decide) (by decide) (by decide) (by decide) hse
  simp [ComponentType.decodeFrom, scoreSelectorKeybindFrom, selectorKeybindFrom,
    lookupField, ht, h2, h3, h4, h5, h6]

theorem siblingsFrom_extra_none {fs : List (String × Json)}
    (h : lookupField fs "extra" = none) : siblingsFrom fs = some [] := by
  unfold siblingsFrom
  split <;> simp_all

theorem siblingsFrom_extra_arr {fs : List (String × Json)} {xs : List Json}
    (h : lookupField fs "extra" = some (Json.arr xs)) :
    siblingsFrom fs = decodeArgs xs := by
  unfold siblingsFrom
  split <;> simp_all

theorem decode_obj_of (fs : List (String × Json)) (k : ComponentType)
    (s : ComponentStyle) (sibs : List ChatComponent)
    (hk : ComponentType.decodeFrom fs = some k)
    (hs : ComponentStyle.decodeFrom fs = some s)
    (hb : siblingsFrom fs = some sibs) :
    ChatComponent.decode (Json.obj fs) = some (ChatComponent.mk k s sibs) := by
  simp [ChatComponent.decode, hk, hs, hb]

theorem decode_encode_sized :
    ∀ (n : Nat) (c : ChatComponent), sizeOf c ≤ n →
      ChatComponent.decode (ChatComponent.encode c) = some c := by
  intro n
  induction n using Nat.strong_induction_on with
  | _ n ih =>
    intro c hc
    obtain ⟨k, s, sibs⟩ := c
    have hmem : ∀ x ∈ sibs, ChatComponent.decode (ChatComponent.encode x) = some x := by
      intro x hx
      have h1 : sizeOf x < sizeOf sibs := List.sizeOf_lt_of_mem hx
      have h2 : sizeOf sibs < sizeOf (ChatComponent.mk k s sibs) := by simp <;> omega
      exact ih (sizeOf x) (by omega) x le_rfl
    have hsibs : decodeArgs (encodeList sibs) = some sibs := decodeArgs_encodeList sibs hmem
    cases k with
    | Text t =>
      obtain ⟨t⟩ := t
      cases sibs with
      | nil =>
        simp only [ChatComponent.encode, ComponentType.encodeFields, List.cons_append,
          List.nil_append]
        refine decode_obj_of _ _ _ _ (kind_decode_text t s []) ?_ ?_
        · rw [style_decode_dropCons _ _ _ (by decide) (by decide) (by decide) (by decide)]
          exact style_decode_encode s [] (by simp [lookupField]) (by simp [lookupField])
            (by simp [lookupField]) (by simp [lookupField])
        · refine siblingsFrom_extra_none ?_
          simp [lookupField]
          exact style_lookup_none s "extra" (by decide) (by decide) (by decide) (by decide)
      | cons c0 cs =>
        simp only [ChatComponent.encode, ComponentType.encodeFields, List.cons_append,
          List.nil_append]
        refine decode_obj_of _ _ _ _
          (kind_decode_text t s [("extra", Json.arr (encodeList (c0 :: cs)))]) ?_ ?_
        · rw [style_decode_dropCons _ _ _ (by decide) (by decide) (by decide) (by decide)]
          exact style_decode_encode s _ (by simp [lookupField]) (by simp [lookupField])
            (by simp [lookupField]) (by simp [lookupField])
        · refine Eq.trans (siblingsFrom_extra_arr ?_) hsibs
          simp [lookupField]
          rw [lookupField_append_none _
            (style_lookup_none s "extra" (by decide) (by decide) (by decide) (by decide))]
          simp [lookupField]
    | Translation tr =>
      obtain ⟨key, ws⟩ := tr
      have hargmem : ∀ x ∈ ws, ChatComponent.decode (ChatComponent.encode x) = some x := by
        intro x hx
        have h1 : sizeOf x < sizeOf ws := List.sizeOf_lt_of_mem hx
        have h3 : sizeOf ws <
            sizeOf (ChatComponent.mk
              (ComponentType.Translation (TranslationComponent.mk key ws)) s sibs) := by
          simp <;> omega
        exact ih (sizeOf x) (by omega) x le_rfl
      have hargs : decodeArgs (encodeList ws) = some ws := decodeArgs_encodeList ws hargmem
      cases sibs with
      | nil =>
        simp only [ChatComponent.encode, ComponentType.encodeFields, List.cons_append,
          List.nil_append]
        refine decode_obj_of _ _ _ _
          (kind_decode_translation key ws s [] (by simp [lookupField]) hargs) ?_ ?_
        · rw [style_decode_dropCons _ _ _ (by decide) (by decide) (by decide) (by decide),
            style_decode_dropCons _ _ _ (by decide) (by decide) (by decide) (by decide)]
          exact style_decode_encode s [] (by simp [lookupField]) (by simp [lookupField])
            (by simp [lookupField]) (by simp [lookupField])
        · refine siblingsFrom_extra_none ?_
          simp [lookupField]
          exact style_lookup_none s "extra" (by decide) (by decide) (by decide) (by decide)
      | cons c0 cs =>
        simp only [ChatComponent.encode, ComponentType.encodeFields, List.cons_append,
          List.nil_append]
        refine decode_obj_of _ _ _ _
          (kind_decode_translation key ws s [("extra", Json.arr (encodeList (c0 :: cs)))]
            (by simp [lookupField]) hargs) ?_ ?_
        · rw [style_decode_dropCons _ _ _ (by decide) (by decide) (by decide) (by decide),
            style_decode_dropCons _ _ _ (by decide) (by decide) (by decide) (by decide)]
          exact style_decode_encode s _ (by simp [lookupField]) (by simp [lookupField])
            (by simp [lookupField]) (by simp [lookupField])
        · refine Eq.trans (siblingsFrom_extra_arr ?_) hsibs
          simp [lookupField]
          rw [lookupField_append_none _
            (style_lookup_none s "extra" (by decide) (by decide) (by decide) (by decide))]
          simp [lookupField]
    | Score sc =>
      obtain ⟨nm, ob, vl⟩ := sc
      cases vl with
      | none =>
        cases sibs with
        | nil =>
          simp only [ChatComponent.encode, ComponentType.encodeFields, List.cons_append,
            List.nil_append]
          refine decode_obj_of _ _ _ _
            (kind_decode_score_none nm ob s [] (by simp [lookupField]) (by simp [lookupField])
              (by simp [lookupField]) (by simp [lookupField])) ?_ ?_
          · rw [style_decode_dropCons _ _ _ (by decide) (by decide) (by decide) (by decide),
              style_decode_dropCons _ _ _ (by decide) (by decide) (by decide) (by decide)]
            exact style_decode_encode s [] (by simp [lookupField]) (by simp [lookupField])
              (by simp [lookupField]) (by simp [lookupField])
          · refine siblingsFrom_extra_none ?_
            simp [lookupField]
            exact style_lookup_none s "extra" (by decide) (by decide) (by decide) (by decide)
        | cons c0 cs =>
          simp only [ChatComponent.encode, ComponentType.encodeFields, List.cons_append,
            List.nil_append]
          refine decode_obj_of _ _ _ _
            (kind_decode_score_none nm ob s [("extra", Json.arr (encodeList (c0 :: cs)))]
              (by simp [lookupField]) (by simp [lookupField]) (by simp [lookupField])
              (by simp [lookupField])) ?_ ?_
          · rw [style_decode_dropCons _ _ _ (by decide) (by decide) (by decide) (by decide),
              style_decode_dropCons _ _ _ (by decide) (by decide) (by decide) (by decide)]
            exact style_decode_encode s _ (by simp [lookupField]) (by simp [lookupField])
              (by simp [lookupField]) (by simp [lookupField])
          · refine Eq.trans (siblingsFrom_extra_arr ?_) hsibs
            simp [lookupField]
            rw [lookupField_append_none _
              (style_lookup_none s "extra" (by decide) (by decide) (by decide) (by decide))]
            simp [lookupField]
      | some v =>
        cases sibs with
        | nil =>
          simp only [ChatComponent.encode, ComponentType.encodeFields, List.cons_append,
            List.nil_append]
          refine decode_obj_of _ _ _ _
            (kind_decode_score_some nm ob v s [] (by simp [lookupField]) (by simp [lookupField])
              (by simp [lookupField])) ?_ ?_
          · rw [style_decode_dropCons _ _ _ (by decide) (by decide) (by decide) (by decide),
              style_decode_dropCons _ _ _ (by decide) (by decide) (by decide) (by decide),
              style_decode_dropCons _ _ _ (by decide) (by decide) (by decide) (by decide)]
            exact style_decode_encode s [] (by simp [lookupField]) (by simp [lookupField])
              (by simp [lookupField]) (by simp [lookupField])
          · refine siblingsFrom_extra_none ?_
            simp [lookupField]
            exact style_lookup_none s "extra" (by decide) (by decide) (by decide) (by decide)
        | cons c0 cs =>
          simp only [ChatComponent.encode, ComponentType.encodeFields, List.cons_append,
            List.nil_append]
          refine decode_obj_of _ _ _ _
            (kind_decode_score_some nm ob v s [("extra", Json.arr (encodeList (c0 :: cs)))]
              (by simp [lookupField]) (by simp [lookupField]) (by simp [lookupField])) ?_ ?_
          · rw [style_decode_dropCons _ _ _ (by decide) (by decide) (by decide) (by decide),
              style_decode_dropCons _ _ _ (by decide) (by decide) (by decide) (by decide),
              style_decode_dropCons _ _ _ (by decide) (by decide) (by decide) (by decide)]
            exact style_decode_encode s _ (by simp [lookupField]) (by simp [lookupField])
              (by simp [lookupField]) (by simp [lookupField])
          · refine Eq.trans (siblingsFrom_extra_arr ?_) hsibs
            simp [lookupField]
            rw [lookupField_append_none _
              (style_lookup_none s "extra" (by decide) (by decide) (by decide) (by decide))]
            simp [lookupField]
    | Selector se =>
      obtain ⟨sel⟩ := se
      cases sibs with
      | nil =>
        simp only [ChatComponent.encode, ComponentType.encodeFields, List.cons_append,
          List.nil_append]
        refine decode_obj_of _ _ _ _
          (kind_decode_selector sel s [] (by simp [lookupField]) (by simp [lookupField])
            (by simp [lookupField]) (by simp [lookupField]) (by simp [lookupField])) ?_ ?_
        · rw [style_decode_dropCons _ _ _ (by decide) (by decide) (by decide) (by decide)]
          exact style_decode_encode s [] (by simp [lookupField]) (by simp [lookupField])
            (by simp [lookupField]) (by simp [lookupField])
        · refine siblingsFrom_extra_none ?_
          simp [lookupField]
          exact style_lookup_none s "extra" (by decide) (by decide) (by decide) (by decide)
      | cons c0 cs =>
        simp only [ChatComponent.encode, ComponentType.encodeFields, List.cons_append,
          List.nil_append]
        refine decode_obj_of _ _ _ _
          (kind_decode_selector sel s [("extra", Json.arr (encodeList (c0 :: cs)))]
            (by simp [lookupField]) (by simp [lookupField]) (by simp [lookupField])
            (by simp [lookupField]) (by simp [lookupField])) ?_ ?_
        · rw [style_decode_dropCons _ _ _ (by decide) (by decide) (by decide) (by decide)]
          exact style_decode_encode s _ (by simp [lookupField]) (by simp [lookupField])
            (by simp [lookupField]) (by simp [lookupField])
        · refine Eq.trans (siblingsFrom_extra_arr ?_) hsibs
          simp [lookupField]
          rw [lookupField_append_none _
            (style_lookup_none s "extra" (by decide) (by decide) (by decide) (by decide))]
          simp [lookupField]
    | Keybind kb =>
      obtain ⟨kbv⟩ := kb
      cases sibs with
      | nil =>
        simp only [ChatComponent.encode, ComponentType.encodeFields, List.cons_append,
          List.nil_append]
        refine decode_obj_of _ _ _ _
          (kind_decode_keybind kbv s [] (by simp [lookupField]) (by simp [lookupField])
            (by simp [lookupField]) (by simp [lookupField]) (by simp [lookupField])
            (by simp [lookupField])) ?_ ?_
        · rw [style_decode_dropCons _ _ _ (by decide) (by decide) (by decide) (by decide)]
          exact style_decode_encode s [] (by simp [lookupField]) (by simp [lookupField])
            (by simp [lookupField]) (by simp [lookupField])
        · refine siblingsFrom_extra_none ?_
          simp [lookupField]
          exact style_lookup_none s "extra" (by decide) (by decide) (by decide) (by decide)
      | cons c0 cs =>
        simp only [ChatComponent.encode, ComponentType.encodeFields, List.cons_append,
          List.nil_append]
        refine decode_obj_of _ _ _ _
          (kind_decode_keybind kbv s [("extra", Json.arr (encodeList (c0 :: cs)))]
            (by simp [lookupField]) (by simp [lookupField]) (by simp [lookupField])
            (by simp [lookupField]) (by simp [lookupField]) (by simp [lookupField])) ?_ ?_
        · rw [style_decode_dropCons _ _ _ (by decide) (by decide) (by decide) (by decide)]
          exact style_decode_encode s _ (by simp [lookupField]) (by simp [lookupField])
            (by simp [lookupField]) (by simp [lookupField])
        · refine Eq.trans (siblingsFrom_extra_arr ?_) hsibs
          simp [lookupField]
          rw [lookupField_append_none _
            (style_lookup_none s "extra" (by decide) (by decide) (by decide) (by decide))]
          simp [lookupField]

theorem encodeList_eq_map (l : List ChatComponent) :
    encodeList l = l.map ChatComponent.encode := by
  induction l with
  | nil => rfl
  | cons c cs ih => simp [encodeList, ih]

theorem kind_lookup_none (k : ComponentType) (key : String)
    (h1 : ¬ ("text" = key)) (h2 : ¬ ("translate" = key)) (h3 : ¬ ("with" = key))
    (h4 : ¬ ("name" = key)) (h5 : ¬ ("objective" = key)) (h6 : ¬ ("value" = key))
    (h7 : ¬ ("selector" = key)) (h8 : ¬ ("keybind" = key)) :
    lookupField (ComponentType.encodeFields k) key = none := by
  cases k with
  | Text t => simp [ComponentType.encodeFields, lookupField, h1]
  | Translation tr =>
    obtain ⟨kk, ws⟩ := tr
    simp [ComponentType.encodeFields, lookupField, h2, h3]
  | Score sc =>
    obtain ⟨n, o, v⟩ := sc
    cases v <;> simp [ComponentType.encodeFields, lookupField, h4, h5, h6]
  | Selector se => simp [ComponentType.encodeFields, lookupField, h7]
  | Keybind kb => simp [ComponentType.encodeFields, lookupField, h8]

theorem kindOp_tag (op : KindOp) (k : ComponentType) :
    ComponentType.tag (KindOp.apply op k) = ComponentType.tag k := by
  cases op <;> cases k <;> rfl

theorem op_preserves_tag (op : Op) (c : ChatComponent) :
    ComponentType.tag (Op.apply op c).kind = ComponentType.tag c.kind := by
  obtain ⟨k, s, sibs⟩ := c
  cases op <;> simp [Op.apply, ChatComponent.kind, kindOp_tag]

theorem cloneList_eq (l : List ChatComponent)
    (ih : ∀ x ∈ l, ChatComponent.clone x = x) : cloneList l = l := by
  induction l with
  | nil => rfl
  | cons c cs ihl =>
    simp [cloneList, ih c (by simp), ihl (fun x hx => ih x (List.mem_cons_of_mem _ hx))]

theorem clone_eq_sized :
    ∀ (n : Nat) (c : ChatComponent), sizeOf c ≤ n → ChatComponent.clone c = c := by
  intro n
  induction n using Nat.strong_induction_on with
  | _ n ih =>
    intro c hc
    obtain ⟨k, s, sibs⟩ := c
    have hmem : ∀ x ∈ sibs, ChatComponent.clone x = x := by
      intro x hx
      have h1 : sizeOf x < sizeOf sibs := List.sizeOf_lt_of_mem hx
      have h2 : sizeOf sibs < sizeOf (ChatComponent.mk k s sibs) := by simp <;> omega
      exact ih (sizeOf x) (by omega) x le_rfl
    have hsibs := cloneList_eq sibs hmem
    cases k with
    | Text t => simp [ChatComponent.clone, ComponentType.clone, hsibs]
    | Translation tr =>
      obtain ⟨key, ws⟩ := tr
      have hws : ∀ x ∈ ws, ChatComponent.clone x = x := by
        intro x hx
        have h1 : sizeOf x < sizeOf ws := List.sizeOf_lt_of_mem hx
        have h3 : sizeOf ws <
            sizeOf (ChatComponent.mk
              (ComponentType.Translation (TranslationComponent.mk key ws)) s sibs) := by
          simp <;> omega
        exact ih (sizeOf x) (by omega) x le_rfl
      simp [ChatComponent.clone, ComponentType.clone, hsibs, cloneList_eq ws hws]
    | Score sc => simp [ChatComponent.clone, ComponentType.clone, hsibs]
    | Selector se => simp [ChatComponent.clone, ComponentType.clone, hsibs]
    | Keybind kb => simp [ChatComponent.clone, ComponentType.clone, hsibs]

/-- C1: for every component of every variant kind, with any children
and (for Translation) any arguments, decoding the encoding yields the
original component: `decode (encode c) = some c`. -/
theorem decode_encode_roundtrip (c : ChatComponent) :
    ChatComponent.decode (ChatComponent.encode c) = some c :=
  decode_encode_sized (sizeOf c) c le_rfl

/-- C2 (counterexample): encoding the Score component with name
"Alice", objective "points" and no value does not produce a top-level
`score` field at all; the record is flat, with `name` and `objective`
at the top level. -/
theorem score_nested_object_counterexample :
    ChatComponent.encode (ChatComponent.mk (ComponentType.Score ⟨"Alice", "points", none⟩)
        ⟨none, none, none, none⟩ [])
      = Json.obj [("name", Json.str "Alice"), ("objective", Json.str "points")] ∧
    Json.lookup (ChatComponent.encode (ChatComponent.mk
        (ComponentType.Score ⟨"Alice", "points", none⟩) ⟨none, none, none, none⟩ []))
        "score" = none :=
  ⟨rfl, rfl⟩

/-- C2 (amended): encoding a component whose variant is Score produces
no `score` field; instead it contributes `name` and `objective`
directly at the top level of the record, and `value` exactly when the
override is present. -/
theorem score_encoding_fields (nm ob : String) (v : Option String) (s : ComponentStyle)
    (sibs : List ChatComponent) :
    Json.lookup (ChatComponent.encode
        (ChatComponent.mk (ComponentType.Score ⟨nm, ob, v⟩) s sibs)) "score" = none ∧
    Json.lookup (ChatComponent.encode
        (ChatComponent.mk (ComponentType.Score ⟨nm, ob, v⟩) s sibs)) "name"
      = some (Json.str nm) ∧
    Json.lookup (ChatComponent.encode
        (ChatComponent.mk (ComponentType.Score ⟨nm, ob, v⟩) s sibs)) "objective"
      = some (Json.str ob) ∧
    Json.lookup (ChatComponent.encode
        (ChatComponent.mk (ComponentType.Score ⟨nm, ob, v⟩) s sibs)) "value"
      = Option.map Json.str v := by
  cases v <;> cases sibs <;>
    refine ⟨?_, ?_, ?_, ?_⟩ <;>
      simp [ChatComponent.encode, ComponentType.encodeFields, Json.lookup, lookupField] <;>
      first
        | exact style_lookup_none s _ (by decide) (by decide) (by decide) (by decide)
        | (rw [lookupField_append_none _
              (style_lookup_none s _ (by decide) (by decide) (by decide) (by decide))]
           simp [lookupField])

/-- C3: no sequence of public-interface mutations (payload mutations
through `get_kind_mut`, style mutations, sibling mutations) changes
which of the five variants a node holds. -/
theorem kind_variant_invariant (ops : List Op) (c : ChatComponent) :
    ComponentType.tag (ChatComponent.kind (applyOps ops c))
      = ComponentType.tag (ChatComponent.kind c) := by
  induction ops generalizing c with
  | nil => rfl
  | cons op rest ihr =>
    have h1 : applyOps (op :: rest) c = applyOps rest (Op.apply op c) := rfl
    rw [h1, ihr (Op.apply op c), op_preserves_tag]

/-- C4: encoding produces no `extra` field when the siblings sequence
is empty, and an `extra` field holding the encoded children in their
original order when it is non-empty. -/
theorem extra_omission (c : ChatComponent) :
    Json.lookup (ChatComponent.encode c) "extra" =
      if (ChatComponent.siblings c).isEmpty then none
      else some (Json.arr ((ChatComponent.siblings c).map ChatComponent.encode)) := by
  obtain ⟨k, s, sibs⟩ := c
  cases sibs with
  | nil =>
    simp only [ChatComponent.encode, ChatComponent.siblings, List.isEmpty_nil, if_pos,
      Json.lookup]
    rw [List.append_assoc,
      lookupField_append_none _ (kind_lookup_none k "extra" (by decide) (by decide)
        (by decide) (by decide) (by decide) (by decide) (by decide) (by decide)),
      lookupField_append_none _
        (style_lookup_none s "extra" (by decide) (by decide) (by decide) (by decide))]
    rfl
  | cons c0 cs =>
    simp only [ChatComponent.encode, ChatComponent.siblings, Json.lookup]
    rw [List.append_assoc,
      lookupField_append_none _ (kind_lookup_none k "extra" (by decide) (by decide)
        (by decide) (by decide) (by decide) (by decide) (by decide) (by decide)),
      lookupField_append_none _
        (style_lookup_none s "extra" (by decide) (by decide) (by decide) (by decide))]
    simp [lookupField, encodeList_eq_map]

/-- C5: for every Translation component the encoded record always
contains the `with` field (even with an empty arguments list) and the
key under the name `translate`. -/
theorem translation_with_always_present (key : String) (ws : List ChatComponent)
    (s : ComponentStyle) (sibs : List ChatComponent) :
    Json.lookup (ChatComponent.encode (ChatComponent.mk
        (ComponentType.Translation (TranslationComponent.mk key ws)) s sibs)) "translate"
      = some (Json.str key) ∧
    Json.lookup (ChatComponent.encode (ChatComponent.mk
        (ComponentType.Translation (TranslationComponent.mk key ws)) s sibs)) "with"
      = some (Json.arr (ws.map ChatComponent.encode)) := by
  constructor <;>
    simp [ChatComponent.encode, ComponentType.encodeFields, Json.lookup, lookupField,
      encodeList_eq_map]

/-- C6 (counterexample): a record matching two variant signatures at
once (`text` and `keybind`) does not fail to decode; the untagged
decoder resolves it to the first matching variant (Text). -/
theorem untagged_multimatch_counterexample :
    ChatComponent.decode (Json.obj [("text", Json.str "a"), ("keybind", Json.str "b")])
      = some (ChatComponent.mk (ComponentType.Text ⟨"a"⟩) ⟨none, none, none, none⟩ []) :=
  decode_obj_of _ _ _ _ (by simp [ComponentType.decodeFrom, lookupField])
    (by simp [ComponentStyle.decodeFrom, optBoolField, optStrField, lookupField])
    (siblingsFrom_extra_none (by simp [lookupField]))

theorem selector_cascade (fs : List (String × Json)) :
    selectorKeybindFrom fs =
      match SelectorComponent.decodeFrom fs with
      | some se => some (ComponentType.Selector se)
      | none =>
        match KeybindComponent.decodeFrom fs with
        | some kb => some (ComponentType.Keybind kb)
        | none => none := by
  unfold selectorKeybindFrom SelectorComponent.decodeFrom KeybindComponent.decodeFrom
  repeat' split <;> try rfl
  all_goals simp_all

theorem score_cascade (fs : List (String × Json)) :
    scoreSelectorKeybindFrom fs =
      match ScoreComponent.decodeFrom fs with
      | some sc => some (ComponentType.Score sc)
      | none => selectorKeybindFrom fs := by
  unfold scoreSelectorKeybindFrom ScoreComponent.decodeFrom
  repeat' split <;> try rfl
  all_goals simp_all

theorem decodeFrom_cascade (fs : List (String × Json)) :
    ComponentType.decodeFrom fs =
      match TextComponent.decodeFrom fs with
      | some t => some (ComponentType.Text t)
      | none =>
        match TranslationComponent.decodeFrom fs with
        | some tr => some (ComponentType.Translation tr)
        | none =>
          match ScoreComponent.decodeFrom fs with
          | some sc => some (ComponentType.Score sc)
          | none =>
            match SelectorComponent.decodeFrom fs with
            | some se => some (ComponentType.Selector se)
            | none =>
              match KeybindComponent.decodeFrom fs with
              | some kb => some (ComponentType.Keybind kb)
              | none => none := by
  have h1 := score_cascade fs
  have h2 := selector_cascade fs
  unfold ComponentType.decodeFrom TextComponent.decodeFrom TranslationComponent.decodeFrom
  rw [h2] at h1
  repeat' split <;> try rfl
  all_goals first
    | exact h1
    | simp_all

/-- C6 (amended): on records without duplicate field names (serde
errors on a duplicated known field, which this model does not cover):
decoding a record that matches no variant signature fails, as does any
non-object value; a record matching more than one signature does not
fail — the untagged decoder resolves it to the first variant in
declaration order (Text, Translation, Score, Selector, Keybind) whose
signature decodes; and encoding is total, always yielding an object. -/
theorem decode_failure_behavior :
    (∀ s, ChatComponent.decode (Json.str s) = none) ∧
    (∀ b, ChatComponent.decode (Json.bool b) = none) ∧
    (∀ xs, ChatComponent.decode (Json.arr xs) = none) ∧
    (∀ fs : List (String × Json), (fs.map Prod.fst).Nodup →
       ComponentType.decodeFrom fs = none → ChatComponent.decode (Json.obj fs) = none) ∧
    (∀ fs : List (String × Json), (fs.map Prod.fst).Nodup →
       ComponentType.decodeFrom fs =
         match TextComponent.decodeFrom fs with
         | some t => some (ComponentType.Text t)
         | none =>
           match TranslationComponent.decodeFrom fs with
           | some tr => some (ComponentType.Translation tr)
           | none =>
             match ScoreComponent.decodeFrom fs with
             | some sc => some (ComponentType.Score sc)
             | none =>
               match SelectorComponent.decodeFrom fs with
               | some se => some (ComponentType.Selector se)
               | none =>
                 match KeybindComponent.decodeFrom fs with
                 | some kb => some (ComponentType.Keybind kb)
                 | none => none) ∧
    (∀ c, ∃ gs, ChatComponent.encode c = Json.obj gs) := by
  refine ⟨?_, ?_, ?_, ?_, ?_, ?_⟩
  · intro s
    simp [ChatComponent.decode]
  · intro b
    simp [ChatComponent.decode]
  · intro xs
    simp [ChatComponent.decode]
  · intro fs _ h
    simp [ChatComponent.decode, h]
  · intro fs _
    exact decodeFrom_cascade fs
  · intro c
    obtain ⟨k, s, sibs⟩ := c
    refine ⟨ComponentType.encodeFields k ++ ComponentStyle.encodeFields s ++
      (match sibs with
       | [] => []
       | _ => [("extra", Json.arr (encodeList sibs))]), ?_⟩
    simp [ChatComponent.encode]

/-- C6 (witness): the record with only a `bold` field is duplicate-free
and matches no variant signature, so it fails to decode; the
duplicate-free record carrying both the Translation signature and the
Selector signature resolves to the Translation variant (declaration
order) instead of failing. -/
theorem decode_failure_behavior_witness :
    ChatComponent.decode (Json.obj [("bold", Json.bool true)]) = none ∧
    ComponentType.decodeFrom
        [("translate", Json.str "k"), ("with", Json.arr []), ("selector", Json.str "@a")]
      = some (ComponentType.Translation (TranslationComponent.mk "k" [])) := by
  constructor
  · exact decode_failure_behavior.2.2.2.1 _ (by simp)
      (by simp [ComponentType.decodeFrom, scoreSelectorKeybindFrom, selectorKeybindFrom,
        lookupField])
  · rw [decode_failure_behavior.2.2.2.2.1 _ (by simp)]
    simp [TextComponent.decodeFrom, TranslationComponent.decodeFrom, lookupField, decodeArgs]

/-- C7: every chainable with-field builder equals its in-place setter,
and a chain of two builder calls equals construction followed by the
two setter calls. -/
theorem builder_setter_equivalence :
    (∀ (p : TextComponent) (x : String), p.withText x = p.set_text x) ∧
    (∀ (p : TranslationComponent) (x : String), p.withKey x = p.set_key x) ∧
    (∀ (p : TranslationComponent) (c : ChatComponent), p.argument c = p.add_arg c) ∧
    (∀ (p : ScoreComponent) (x : String), p.withName x = p.set_name x) ∧
    (∀ (p : ScoreComponent) (x : String), p.withObjective x = p.set_objective x) ∧
    (∀ (p : ScoreComponent) (v : Option String), p.withValue v = p.set_value v) ∧
    (∀ (p : SelectorComponent) (x : String), p.withSelector x = p.set_selector x) ∧
    (∀ (p : KeybindComponent) (x : String), p.withKeybind x = p.set_keybind x) ∧
    (∀ (n o x y : String),
      ((ScoreComponent.from_score n o).withName x).withObjective y =
        ScoreComponent.set_objective
          (ScoreComponent.set_name (ScoreComponent.from_score n o) x) y) :=
  ⟨fun _ _ => rfl, fun _ _ => rfl, fun _ _ => rfl, fun _ _ => rfl, fun _ _ => rfl,
   fun _ _ => rfl, fun _ _ => rfl, fun _ _ => rfl, fun _ _ _ _ => rfl⟩

/-- C8: cloning is a deep structural copy equal to the original, and
mutating the clone through any sequence of public-interface operations
leaves the original value unchanged (it equals its pre-clone state). -/
theorem clone_mutation_independence (c : ChatComponent) (ops : List Op) :
    ChatComponent.clone c = c ∧
      applyOps ops (ChatComponent.clone c) = applyOps ops c := by
  have h := clone_eq_sized (sizeOf c) c le_rfl
  exact ⟨h, by rw [h]⟩

/-- C9: setting a style attribute through the node's deref forwarding
surface equals fetching the style with `get_style_mut` and setting it
there; the forwarding layer has no independent state (deref is exactly
the style field, and kind and siblings are untouched). -/
theorem style_delegation_transparency (c : ChatComponent) (op : StyleOp) :
    c.setStyleViaDeref op = c.setStyleViaGetStyle op ∧
    ChatComponent.style (c.setStyleViaDeref op) = StyleOp.apply op (ChatComponent.style c) ∧
    ChatComponent.kind (c.setStyleViaDeref op) = ChatComponent.kind c ∧
    ChatComponent.siblings (c.setStyleViaDeref op) = ChatComponent.siblings c ∧
    ChatComponent.deref c = ChatComponent.style c := by
  obtain ⟨k, s, sibs⟩ := c
  exact ⟨rfl, rfl, rfl, rfl, rfl⟩

/-- C10: each per-field setter modifies only its own field: the Score
setters leave the other two Score fields unchanged, and the
Translation key setter leaves the arguments list unchanged. -/
theorem setter_frame_effects :
    (∀ (sc : ScoreComponent) (n : String),
       (sc.set_name n).objective = sc.objective ∧ (sc.set_name n).value = sc.value) ∧
    (∀ (sc : ScoreComponent) (o : String),
       (sc.set_objective o).name = sc.name ∧ (sc.set_objective o).value = sc.value) ∧
    (∀ (sc : ScoreComponent) (v : Option String),
       (sc.set_value v).name = sc.name ∧ (sc.set_value v).objective = sc.objective) ∧
    (∀ (t : TranslationComponent) (k : String),
       TranslationComponent.args (t.set_key k) = TranslationComponent.args t) :=
  ⟨fun _ _ => ⟨rfl, rfl⟩, fun _ _ => ⟨rfl, rfl⟩, fun _ _ => ⟨rfl, rfl⟩, fun _ _ => rfl⟩
